import Mathlib

/-!
Shallow embedding of the dev-connect REST backend route handlers
(src/routes/api/posts.js and src/routes/api/profile.js), together with
theorems settling the behavioural claims about them.

Document stores are modelled as lists of documents; mongoose operations
(findById, findOne, findOneAndUpdate, findOneAndRemove, save, subdocument
arrays with unshift / splice / indexOf / filter / find) are modelled with
their JavaScript semantics, including the negative-index behaviour of
Array.prototype.splice and the -1 result of indexOf.
-/

/-- HTTP-level result of a handler: a JSON value or a status code with a
message, mirroring res.json(v) versus res.status(n).json or .send. -/
inductive HResp (α : Type) where
  | ok (v : α)
  | fail (status : Nat) (msg : String)
deriving Repr, DecidableEq

/-- A hexadecimal digit, as accepted by a MongoDB ObjectId. -/
def isHexChar (c : Char) : Bool :=
  (decide ('0' ≤ c) && decide (c ≤ '9')) ||
  (decide ('a' ≤ c) && decide (c ≤ 'f')) ||
  (decide ('A' ≤ c) && decide (c ≤ 'F'))

/-- Whether a string is a syntactically well-formed ObjectId (24 hex
characters); mongoose throws a CastError of kind ObjectId otherwise. -/
def isValidObjectId (s : String) : Bool :=
  s.length == 24 && s.toList.all isHexChar

/-- JavaScript String.prototype.split(',') helper over the character
list: split at every comma, keeping empty pieces. -/
def splitCommaAux : List Char → List Char → List String
  | [], acc => [String.mk acc.reverse]
  | c :: rest, acc =>
    if c = ',' then String.mk acc.reverse :: splitCommaAux rest []
    else splitCommaAux rest (c :: acc)

/-- JavaScript String.prototype.split(','). -/
def jsSplitComma (s : String) : List String :=
  splitCommaAux s.data []

/-- JavaScript String.prototype.trim: drop whitespace from both ends. -/
def jsTrim (s : String) : String :=
  String.mk (((s.data.dropWhile Char.isWhitespace).reverse.dropWhile
    Char.isWhitespace).reverse)

/-- JavaScript Array.prototype.indexOf: first index of x, or -1. -/
def jsIndexOf (x : String) : List String → Int
  | [] => -1
  | a :: rest =>
    if a == x then 0
    else if jsIndexOf x rest < 0 then -1 else jsIndexOf x rest + 1

/-- JavaScript Array.prototype.splice(i, 1): a negative index counts from
the end (clamped at 0), an index at or past the length deletes nothing. -/
def spliceRemove1 {α : Type} (l : List α) (i : Int) : List α :=
  let len : Int := l.length
  let start := if i < 0 then (max (len + i) 0).toNat else (min i len).toNat
  l.take start ++ l.drop (start + 1)

/-- Mongoose findOneAndRemove: delete the first document matching the
predicate, leave the rest of the collection unchanged. -/
def findOneAndRemove {α : Type} (p : α → Bool) : List α → List α
  | [] => []
  | a :: rest => if p a then rest else a :: findOneAndRemove p rest

/-! ## Post model (src/routes/api/posts.js) -/

/-- A like subdocument: { user } (posts.js line 137). -/
structure Like where
  user : String
deriving Repr, DecidableEq

/-- A comment subdocument: text, name, avatar, user, plus its own
subdocument id (posts.js lines 208-213). -/
structure Comment where
  id : String
  text : String
  name : String
  avatar : String
  user : String
deriving Repr, DecidableEq

/-- A post document: text, author snapshot (name, avatar), owning user id,
embedded likes and comments (models/Post via posts.js lines 37-42). -/
structure Post where
  id : String
  text : String
  name : String
  avatar : String
  user : String
  likes : List Like
  comments : List Comment
deriving Repr, DecidableEq

/-- Post.findById: an ill-formed id throws a CastError (modelled as
.error), a well-formed id resolves to the first document with that id or
to null (modelled as .ok none). -/
def findById (store : List Post) (id : String) : Except Unit (Option Post) :=
  if isValidObjectId id then .ok (store.find? (fun p => p.id == id)) else .error ()

/-- post.save(): persist the modified document back into the store. -/
def saveDoc (store : List Post) (p : Post) : List Post :=
  store.map (fun q => if q.id == p.id then p else q)

/-- GET api/posts/:id (posts.js lines 74-91): the post, or 404 both when
absent and when the id is ill-formed (err.kind === ObjectId). -/
def getPost (store : List Post) (id : String) : HResp Post :=
  match findById store id with
  | .error _ => .fail 404 "Post not found "
  | .ok none => .fail 404 "Post not found "
  | .ok (some p) => .ok p

/-- DELETE api/posts/:id (posts.js lines 97-120): 404 when absent or
ill-formed, 401 when the requester does not own the post, otherwise the
post is removed. -/
def deletePost (store : List Post) (id uid : String) : HResp String × List Post :=
  match findById store id with
  | .error _ => (.fail 404 "Post not found ", store)
  | .ok none => (.fail 404 "Post not found ", store)
  | .ok (some p) =>
    if p.user != uid then (.fail 401 "User not authorized", store)
    else (.ok "Post removed", findOneAndRemove (fun q => q.id == p.id) store)

/-- PUT api/posts/like/:id (posts.js lines 126-146): no existence check —
a null post makes post.likes throw, landing in the catch-all 500; a
duplicate like is rejected with 400; otherwise the like is prepended. -/
def likePost (store : List Post) (id uid : String) : HResp (List Like) × List Post :=
  match findById store id with
  | .error _ => (.fail 500 "Server error", store)
  | .ok none => (.fail 500 "Server error", store)
  | .ok (some p) =>
    if (p.likes.filter (fun l => l.user == uid)).length > 0 then
      (.fail 400 "Post already liked", store)
    else
      let p2 := { p with likes := { user := uid } :: p.likes }
      (.ok p2.likes, saveDoc store p2)

/-- PUT api/posts/unlike/:id (posts.js lines 152-178): no existence check
(500 as for like); unliking a not-liked post is rejected with 400;
otherwise splice at indexOf of the requester's user id over the likes. -/
def unlikePost (store : List Post) (id uid : String) : HResp (List Like) × List Post :=
  match findById store id with
  | .error _ => (.fail 500 "Server error", store)
  | .ok none => (.fail 500 "Server error", store)
  | .ok (some p) =>
    if (p.likes.filter (fun l => l.user == uid)).length == 0 then
      (.fail 400 "Post has not yet been liked", store)
    else
      let i := jsIndexOf uid (p.likes.map (fun l => l.user))
      let p2 := { p with likes := spliceRemove1 p.likes i }
      (.ok p2.likes, saveDoc store p2)

/-- POST api/posts/comment/:id (posts.js lines 184-225): prepend a fresh
comment (subdocument id newId generated by the schema); a null post makes
post.comments throw, landing in the catch-all 500. -/
def addComment (store : List Post) (id uid name avatar text newId : String) :
    HResp (List Comment) × List Post :=
  match findById store id with
  | .error _ => (.fail 500 "Server error", store)
  | .ok none => (.fail 500 "Server error", store)
  | .ok (some p) =>
    let c : Comment := { id := newId, text := text, name := name, avatar := avatar, user := uid }
    let p2 := { p with comments := c :: p.comments }
    (.ok p2.comments, saveDoc store p2)

/-- DELETE api/posts/comment/:id/:comment_id (posts.js lines 231-261):
locate the comment by its own id (500 with 'Comment does not exit' when
absent), 401 when the requester is not its author, then splice at the
index of the FIRST comment whose user is the requester — the index is
computed from the requester's user id, not from the comment id. -/
def deleteComment (store : List Post) (id commentId uid : String) :
    HResp (List Comment) × List Post :=
  match findById store id with
  | .error _ => (.fail 500 "Server error", store)
  | .ok none => (.fail 500 "Server error", store)
  | .ok (some p) =>
    match p.comments.find? (fun c => c.id == commentId) with
    | none => (.fail 500 "Comment does not exit", store)
    | some c =>
      if c.user != uid then (.fail 401 "User not authorized", store)
      else
        let i := jsIndexOf uid (p.comments.map (fun c => c.user))
        let p2 := { p with comments := spliceRemove1 p.comments i }
        (.ok p2.comments, saveDoc store p2)

/-! ## Profile model (src/routes/api/profile.js) -/

/-- An experience subdocument with its own id (profile.js lines 222-230). -/
structure Experience where
  id : String
  title : String
  company : String
  location : Option String
  fromDate : String
  toDate : Option String
  current : Option Bool
  description : Option String
deriving Repr, DecidableEq

/-- The social-links sub-record (profile.js lines 62-67). -/
structure Social where
  youtube : Option String
  facebook : Option String
  twitter : Option String
  instagram : Option String
  linkedin : Option String
deriving Repr, DecidableEq

/-- A profile document, one-to-one with a user. -/
structure Profile where
  user : String
  company : Option String
  website : Option String
  location : Option String
  bio : Option String
  status : Option String
  githubusername : Option String
  skills : Option (List String)
  social : Social
  experience : List Experience
deriving Repr, DecidableEq

/-- The request body of POST api/profile (profile.js lines 34-47); a field
the client omitted is none. -/
structure ProfileBody where
  company : Option String
  website : Option String
  location : Option String
  bio : Option String
  status : Option String
  githubusername : Option String
  skills : Option String
  youtube : Option String
  facebook : Option String
  twitter : Option String
  instagram : Option String
  linkedin : Option String
deriving Repr, DecidableEq

/-- JavaScript truthiness of an optional string field: present and
non-empty (the empty string is falsy). -/
def truthy : Option String → Bool
  | none => false
  | some s => !s.isEmpty

/-- if (field) profileFields.field = field — keep a truthy value. -/
def keepIf (v : Option String) : Option String :=
  if truthy v then v else none

/-- The partial update document built by the handler: keys only present
for truthy body fields, except user and social which are always set. -/
structure ProfileFields where
  user : String
  company : Option String
  website : Option String
  location : Option String
  bio : Option String
  status : Option String
  githubusername : Option String
  skills : Option (List String)
  social : Social
deriving Repr, DecidableEq

/-- profileFields.social (profile.js lines 62-67): always assigned a fresh
object, then truthy social fields copied in. -/
def buildSocial (b : ProfileBody) : Social :=
  { youtube := keepIf b.youtube
    facebook := keepIf b.facebook
    twitter := keepIf b.twitter
    instagram := keepIf b.instagram
    linkedin := keepIf b.linkedin }

/-- profileFields (profile.js lines 50-67): user always set; each truthy
top-level field copied; skills split on ',' and each element trimmed. -/
def buildProfileFields (uid : String) (b : ProfileBody) : ProfileFields :=
  { user := uid
    company := keepIf b.company
    website := keepIf b.website
    location := keepIf b.location
    bio := keepIf b.bio
    status := keepIf b.status
    githubusername := keepIf b.githubusername
    skills :=
      match b.skills with
      | some s => if s.isEmpty then none else some ((jsSplitComma s).map jsTrim)
      | none => none
    social := buildSocial b }

/-- MongoDB $set applied to one profile: keys present in profileFields
overwrite, keys absent are untouched; social is always a key of
profileFields, so the whole embedded social record is replaced. -/
def setField (new old : Option String) : Option String :=
  match new with
  | some v => some v
  | none => old

/-- Apply the $set update document to a stored profile. -/
def applySet (p : Profile) (f : ProfileFields) : Profile :=
  { user := f.user
    company := setField f.company p.company
    website := setField f.website p.website
    location := setField f.location p.location
    bio := setField f.bio p.bio
    status := setField f.status p.status
    githubusername := setField f.githubusername p.githubusername
    skills := match f.skills with | some l => some l | none => p.skills
    social := f.social
    experience := p.experience }

/-- new Profile(profileFields): the inserted document (schema default:
empty experience list). -/
def profileOfFields (f : ProfileFields) : Profile :=
  { user := f.user
    company := f.company
    website := f.website
    location := f.location
    bio := f.bio
    status := f.status
    githubusername := f.githubusername
    skills := f.skills
    social := f.social
    experience := [] }

/-- Profile.findOneAndUpdate({user}, {$set}, {new:true}): update the first
matching document, returning it post-update. -/
def findOneAndUpdateByUser (uid : String) (f : Profile → Profile) :
    List Profile → Option Profile × List Profile
  | [] => (none, [])
  | p :: rest =>
    if p.user == uid then (some (f p), f p :: rest)
    else
      let r := findOneAndUpdateByUser uid f rest
      (r.1, p :: r.2)

/-- POST api/profile (profile.js lines 13-96): validation requires truthy
status and skills; then find the profile by user and $set-update it, or
insert a new document built from profileFields. -/
def upsertProfile (profiles : List Profile) (uid : String) (b : ProfileBody) :
    HResp Profile × List Profile :=
  if !truthy b.status || !truthy b.skills then (.fail 400 "errors", profiles)
  else
    let fields := buildProfileFields uid b
    match profiles.find? (fun p => p.user == uid) with
    | some _ =>
      let r := findOneAndUpdateByUser uid (fun p => applySet p fields) profiles
      match r.1 with
      | some updated => (.ok updated, r.2)
      | none => (.fail 500 "Server error", r.2)
    | none =>
      let newP := profileOfFields fields
      (.ok newP, profiles ++ [newP])

/-- GET api/profile/user/:user_id (profile.js lines 116-136): one profile,
or 400 'Profile not found' both when absent and when the id is ill-formed
(the CastError is mapped to the same response). -/
def getProfileByUser (profiles : List Profile) (uid : String) : HResp Profile :=
  if isValidObjectId uid then
    match profiles.find? (fun p => p.user == uid) with
    | none => .fail 400 "Profile not found"
    | some p => .ok p
  else .fail 400 "Profile not found"

/-- profile.save(): persist the modified profile document (identified by
its unique user key). -/
def saveProfile (profiles : List Profile) (p : Profile) : List Profile :=
  profiles.map (fun q => if q.user == p.user then p else q)

/-- DELETE api/profile/experience/:exp_id (profile.js lines 253-271):
splice at indexOf of exp_id over the experience ids; a missing profile
makes profile.experience throw (catch-all 500). -/
def deleteExperience (profiles : List Profile) (uid expId : String) :
    HResp Profile × List Profile :=
  match profiles.find? (fun p => p.user == uid) with
  | none => (.fail 500 "Server error", profiles)
  | some prof =>
    let i := jsIndexOf expId (prof.experience.map (fun e => e.id))
    let prof2 := { prof with experience := spliceRemove1 prof.experience i }
    (.ok prof2, saveProfile profiles prof2)

/-- A user document (models/User): identity record. -/
structure User where
  id : String
  name : String
  email : String
  avatar : String
deriving Repr, DecidableEq

/-- The whole persistent state: users, profiles and posts collections. -/
structure AppState where
  users : List User
  profiles : List Profile
  posts : List Post
deriving Repr, DecidableEq

/-- DELETE api/profile (profile.js lines 168-180): remove the requester's
profile and user documents; the removal of the user's posts is only a
TODO comment — the posts collection is not touched. -/
def deleteAccount (s : AppState) (uid : String) : HResp String × AppState :=
  let profiles2 := findOneAndRemove (fun p => p.user == uid) s.profiles
  let users2 := findOneAndRemove (fun u => u.id == uid) s.users
  (.ok "User deleted", { s with profiles := profiles2, users := users2 })

/-! ## Concrete sample data used by witnesses and counterexamples -/

/-- A post with no likes and no comments, owned by u1. -/
def samplePost : Post :=
  { id := "aaaaaaaaaaaaaaaaaaaaaaaa", text := "hello", name := "A", avatar := "av",
    user := "u1", likes := [], comments := [] }

/-- A post already liked by u2 and u3. -/
def sampleLikedPost : Post :=
  { id := "aaaaaaaaaaaaaaaaaaaaaaaa", text := "hello", name := "A", avatar := "av",
    user := "u1", likes := [{ user := "u2" }, { user := "u3" }], comments := [] }

/-- A profile keyed by a well-formed ObjectId user. -/
def sampleProfile : Profile :=
  { user := "bbbbbbbbbbbbbbbbbbbbbbbb", company := none, website := none,
    location := none, bio := none, status := some "dev", githubusername := none,
    skills := some ["js"], social := ⟨none, none, none, none, none⟩, experience := [] }

/-- One experience entry. -/
def sampleExp : Experience :=
  { id := "e1", title := "Dev", company := "Acme", location := none,
    fromDate := "2020", toDate := none, current := none, description := none }

/-- A profile of user u1 holding exactly the experience entry e1. -/
def sampleProfileExp : Profile :=
  { user := "u1", company := none, website := none, location := none, bio := none,
    status := some "dev", githubusername := none, skills := some ["js"],
    social := ⟨none, none, none, none, none⟩, experience := [sampleExp] }

/-- First upsert body: status, skills and a youtube link. -/
def bodyA : ProfileBody :=
  { company := none, website := none, location := none, bio := none,
    status := some "dev", githubusername := none, skills := some "js",
    youtube := some "ytA", facebook := none, twitter := none,
    instagram := none, linkedin := none }

/-- Second upsert body: status, skills and a twitter link; youtube absent. -/
def bodyB : ProfileBody :=
  { company := none, website := none, location := none, bio := none,
    status := some "dev", githubusername := none, skills := some "js",
    youtube := none, facebook := none, twitter := some "twB",
    instagram := none, linkedin := none }

/-- The post used in the comment-deletion scenario, owned by another user. -/
def cPost : Post :=
  { id := "aaaaaaaaaaaaaaaaaaaaaaaa", text := "hello", name := "A", avatar := "av",
    user := "cccccccccccccccccccccccc", likes := [], comments := [] }

/-- The store after one user adds two comments (subdocument ids c1 then
c2) to cPost via POST api/posts/comment/:id. -/
def cStore : List Post :=
  (addComment
    ((addComment [cPost] "aaaaaaaaaaaaaaaaaaaaaaaa" "dddddddddddddddddddddddd"
        "U" "av2" "first comment" "c1").2)
    "aaaaaaaaaaaaaaaaaaaaaaaa" "dddddddddddddddddddddddd"
    "U" "av2" "second comment" "c2").2

/-- An app state holding the u1 profile, the u1 user record and a post
authored by u1. -/
def sampleState : AppState :=
  { users := [{ id := "u1", name := "A", email := "a@x", avatar := "av" }],
    profiles := [sampleProfileExp],
    posts := [samplePost] }

/-! ## Helper lemmas about the JavaScript array operations -/

theorem erasePConsPos {α : Type} (p : α → Bool) (a : α) (l : List α) (h : p a = true) :
    (a :: l).eraseP p = l := List.eraseP_cons_of_pos h

theorem erasePConsNeg {α : Type} (p : α → Bool) (a : α) (l : List α) (h : ¬ p a = true) :
    (a :: l).eraseP p = a :: l.eraseP p := List.eraseP_cons_of_neg h

theorem filterConsPos {α : Type} (p : α → Bool) (a : α) (l : List α) (h : p a = true) :
    (a :: l).filter p = a :: l.filter p := List.filter_cons_of_pos h

theorem filterConsNeg {α : Type} (p : α → Bool) (a : α) (l : List α) (h : ¬ p a = true) :
    (a :: l).filter p = l.filter p := List.filter_cons_of_neg h

theorem findConsPos {α : Type} (p : α → Bool) (a : α) (l : List α) (h : p a = true) :
    (a :: l).find? p = some a := List.find?_cons_of_pos l h

theorem findConsNeg {α : Type} (p : α → Bool) (a : α) (l : List α) (h : ¬ p a = true) :
    (a :: l).find? p = l.find? p := List.find?_cons_of_neg l h

theorem findSomeSat {α : Type} (p : α → Bool) (l : List α) (a : α)
    (h : l.find? p = some a) : p a = true := List.find?_some h

/-- Unfolding equation for saveDoc on a cons cell. -/
theorem saveDoc_cons (q : Post) (rest : List Post) (pnew : Post) :
    saveDoc (q :: rest) pnew
      = (if q.id == pnew.id then pnew else q) :: saveDoc rest pnew := rfl

theorem jsIndexOf_of_not_mem (x : String) :
    ∀ l : List String, x ∉ l → jsIndexOf x l = -1 := by
  intro l
  induction l with
  | nil => intro _; rfl
  | cons a rest ih =>
    intro h
    simp only [List.mem_cons, not_or] at h
    have hax : ¬ (a == x) = true := by
      simp only [beq_iff_eq]
      exact fun hax => h.1 hax.symm
    simp [jsIndexOf, hax, ih h.2]

theorem jsIndexOf_nonneg_of_mem (x : String) :
    ∀ l : List String, x ∈ l → 0 ≤ jsIndexOf x l := by
  intro l
  induction l with
  | nil => intro h; exact absurd h (List.not_mem_nil x)
  | cons a rest ih =>
    intro h
    by_cases hax : (a == x) = true
    · simp [jsIndexOf, hax]
    · have hx : x ∈ rest := by
        rcases List.mem_cons.mp h with h1 | h2
        · exact absurd (by simp [h1]) hax
        · exact h2
      have hr := ih hx
      have hnot : ¬ jsIndexOf x rest < 0 := by omega
      simp only [jsIndexOf, if_neg hax, if_neg hnot]
      omega

theorem spliceRemove1_cons_zero {α : Type} (a : α) (rest : List α) :
    spliceRemove1 (a :: rest) 0 = rest := by
  simp only [spliceRemove1]
  have h1 : ¬ (0 : Int) < 0 := by omega
  rw [if_neg h1]
  have h2 : (min (0 : Int) (((a :: rest).length : Nat) : Int)).toNat = 0 := by
    simp only [List.length_cons]
    omega
  rw [h2]
  simp

theorem spliceRemove1_cons_add_one {α : Type} (a : α) (rest : List α) (r : Int) (hr : 0 ≤ r) :
    spliceRemove1 (a :: rest) (r + 1) = a :: spliceRemove1 rest r := by
  simp only [spliceRemove1]
  have h1 : ¬ r + 1 < 0 := by omega
  have h2 : ¬ r < 0 := by omega
  rw [if_neg h1, if_neg h2]
  have h3 : (min (r + 1) (((a :: rest).length : Nat) : Int)).toNat
      = (min r ((rest.length : Nat) : Int)).toNat + 1 := by
    simp only [List.length_cons]
    omega
  rw [h3]
  simp

theorem spliceRemove1_neg_one {α : Type} (l : List α) :
    spliceRemove1 l (-1) = l.dropLast := by
  simp only [spliceRemove1]
  have h1 : (-1 : Int) < 0 := by omega
  rw [if_pos h1]
  have h2 : (max (((l.length : Nat) : Int) + -1) 0).toNat = l.length - 1 := by omega
  rw [h2, List.dropLast_eq_take]
  have h3 : l.drop (l.length - 1 + 1) = [] := by
    cases l with
    | nil => rfl
    | cons a rest =>
      have h4 : (a :: rest).length - 1 + 1 = (a :: rest).length := by
        simp [List.length_cons]
      rw [h4, List.drop_length]
  rw [h3, List.append_nil]

theorem spliceRemove1_jsIndexOf_mem {α : Type} (f : α → String) (x : String) :
    ∀ l : List α, x ∈ l.map f →
      spliceRemove1 l (jsIndexOf x (l.map f)) = l.eraseP (fun a => f a == x) := by
  intro l
  induction l with
  | nil => intro h; simp at h
  | cons a rest ih =>
    intro h
    by_cases hax : (f a == x) = true
    · have hidx : jsIndexOf x ((a :: rest).map f) = 0 := by
        simp [jsIndexOf, hax]
      rw [hidx, spliceRemove1_cons_zero, erasePConsPos (fun b => f b == x) a rest hax]
    · have hx : x ∈ rest.map f := by
        simp only [List.map_cons, List.mem_cons] at h
        rcases h with h1 | h2
        · exact absurd (by simp [h1]) hax
        · exact h2
      have hr := jsIndexOf_nonneg_of_mem x (rest.map f) hx
      have hnot : ¬ jsIndexOf x (rest.map f) < 0 := by omega
      have hidx : jsIndexOf x ((a :: rest).map f) = jsIndexOf x (rest.map f) + 1 := by
        simp only [List.map_cons, jsIndexOf, if_neg hax, if_neg hnot]
      rw [hidx, spliceRemove1_cons_add_one a rest _ hr,
        erasePConsNeg (fun b => f b == x) a rest hax, ih hx]

theorem spliceRemove1_jsIndexOf_not_mem {α : Type} (f : α → String) (x : String)
    (l : List α) (h : x ∉ l.map f) :
    spliceRemove1 l (jsIndexOf x (l.map f)) = l.dropLast := by
  rw [jsIndexOf_of_not_mem x _ h, spliceRemove1_neg_one]

theorem filter_eraseP_of_ne {α : Type} (f : α → String) (u v : String) (hne : ¬ v = u) :
    ∀ l : List α,
      (l.eraseP (fun a => f a == u)).filter (fun a => f a == v)
        = l.filter (fun a => f a == v) := by
  intro l
  induction l with
  | nil => rfl
  | cons a rest ih =>
    by_cases hau : (f a == u) = true
    · rw [erasePConsPos (fun b => f b == u) a rest hau]
      have hfa : f a = u := eq_of_beq hau
      have hav : ¬ (f a == v) = true := by
        rw [hfa]
        simp only [beq_iff_eq]
        exact fun h => hne h.symm
      rw [filterConsNeg (fun b => f b == v) a rest hav]
    · rw [erasePConsNeg (fun b => f b == u) a rest hau]
      by_cases hav : (f a == v) = true
      · rw [filterConsPos (fun b => f b == v) a (rest.eraseP (fun b => f b == u)) hav,
          filterConsPos (fun b => f b == v) a rest hav, ih]
      · rw [filterConsNeg (fun b => f b == v) a (rest.eraseP (fun b => f b == u)) hav,
          filterConsNeg (fun b => f b == v) a rest hav, ih]

theorem mem_map_iff_filter_pos {α : Type} (f : α → String) (x : String) (l : List α) :
    x ∈ l.map f ↔ 0 < (l.filter (fun a => f a == x)).length := by
  rw [List.length_pos]
  constructor
  · intro h
    rcases List.mem_map.mp h with ⟨a, ha, hfa⟩
    intro hnil
    have h2 := List.filter_eq_nil_iff.mp hnil a ha
    exact h2 (by simp [hfa])
  · intro h
    by_contra hx
    apply h
    apply List.filter_eq_nil_iff.mpr
    intro a ha
    simp only [beq_iff_eq]
    intro hfa
    exact hx (List.mem_map.mpr ⟨a, ha, hfa⟩)

theorem find?_saveDoc (pid : String) (pnew : Post) (hid : pnew.id = pid) :
    ∀ (store : List Post) (p : Post),
      store.find? (fun q => q.id == pid) = some p →
      (saveDoc store pnew).find? (fun q => q.id == pid) = some pnew := by
  intro store
  induction store with
  | nil => intro p h; simp [List.find?] at h
  | cons q rest ih =>
    intro p h
    by_cases hq : (q.id == pid) = true
    · rw [saveDoc_cons, if_pos (show (q.id == pnew.id) = true by rw [hid]; exact hq)]
      exact findConsPos (fun r => r.id == pid) pnew (saveDoc rest pnew) (by simp [hid])
    · rw [findConsNeg (fun r => r.id == pid) q rest hq] at h
      rw [saveDoc_cons, if_neg (show ¬ (q.id == pnew.id) = true by rw [hid]; exact hq)]
      rw [findConsNeg (fun r => r.id == pid) q (saveDoc rest pnew) hq]
      exact ih p h

theorem filter_findOneAndRemove {α : Type} (p : α → Bool) :
    ∀ l : List α, (l.filter p).length ≤ 1 →
      (findOneAndRemove p l).filter p = [] := by
  intro l
  induction l with
  | nil => intro _; rfl
  | cons a rest ih =>
    intro h
    by_cases ha : p a = true
    · simp only [findOneAndRemove, if_pos ha]
      rw [List.filter_cons_of_pos ha] at h
      simp only [List.length_cons] at h
      have h0 : (rest.filter p).length = 0 := by omega
      exact List.length_eq_zero.mp h0
    · simp only [findOneAndRemove, if_neg ha]
      rw [List.filter_cons_of_neg ha] at h
      rw [List.filter_cons_of_neg ha]
      exact ih h

theorem find?_findOneAndRemove_of_le_one {α : Type} (p : α → Bool) (l : List α)
    (h : (l.filter p).length ≤ 1) : (findOneAndRemove p l).find? p = none := by
  apply List.find?_eq_none.mpr
  intro x hx hpx
  have hmem : x ∈ (findOneAndRemove p l).filter p := List.mem_filter.mpr ⟨hx, hpx⟩
  rw [filter_findOneAndRemove p l h] at hmem
  simp at hmem

theorem findOneAndUpdateByUser_of_find? (uid : String) (f : Profile → Profile) :
    ∀ (l : List Profile) (q : Profile),
      l.find? (fun p => p.user == uid) = some q →
      (findOneAndUpdateByUser uid f l).1 = some (f q) := by
  intro l
  induction l with
  | nil => intro q h; simp [List.find?] at h
  | cons a rest ih =>
    intro q h
    by_cases ha : (a.user == uid) = true
    · rw [findConsPos (fun p => p.user == uid) a rest ha] at h
      cases h
      simp [findOneAndUpdateByUser, ha]
    · rw [findConsNeg (fun p => p.user == uid) a rest ha] at h
      simp only [findOneAndUpdateByUser, if_neg ha]
      exact ih q h

theorem findOneAndUpdateByUser_append_singleton (uid : String) (f : Profile → Profile)
    (x : Profile) (hx : (x.user == uid) = true) :
    ∀ l : List Profile, l.find? (fun p => p.user == uid) = none →
      findOneAndUpdateByUser uid f (l ++ [x]) = (some (f x), l ++ [f x]) := by
  intro l
  induction l with
  | nil =>
    intro _
    simp [findOneAndUpdateByUser, hx]
  | cons a rest ih =>
    intro h
    have ha : ¬ (a.user == uid) = true := by
      intro hh
      rw [findConsPos (fun p => p.user == uid) a rest hh] at h
      cases h
    rw [findConsNeg (fun p => p.user == uid) a rest ha] at h
    rw [List.cons_append]
    simp only [findOneAndUpdateByUser, if_neg ha, ih h, List.cons_append]

theorem find?_append_singleton {α : Type} (p : α → Bool) (x : α) (hx : p x = true) :
    ∀ l : List α, l.find? p = none → (l ++ [x]).find? p = some x := by
  intro l
  induction l with
  | nil => intro _; simpa using List.find?_cons_of_pos ([] : List α) hx
  | cons a rest ih =>
    intro h
    have ha : ¬ p a = true := by
      intro hh
      rw [List.find?_cons_of_pos _ hh] at h
      cases h
    rw [List.find?_cons_of_neg _ ha] at h
    rw [List.cons_append, List.find?_cons_of_neg _ ha]
    exact ih h

theorem filter_append_of_find?_none {α : Type} (p : α → Bool) (x : α) (l : List α)
    (h : l.find? p = none) : (l ++ [x]).filter p = [x].filter p := by
  rw [List.filter_append, List.filter_eq_nil_iff.mpr (List.find?_eq_none.mp h),
    List.nil_append]

/-! ## Claim theorems -/

/-- C9: a like or unlike request whose well-formed post id matches no
existing post is not answered with a not-found response: the null post
dereference lands in the catch-all and both handlers answer 500 Server
error, leaving the store unchanged. -/
theorem like_unlike_missing_post_is_500 (store : List Post) (pid uid : String)
    (hv : isValidObjectId pid = true)
    (hnone : store.find? (fun p => p.id == pid) = none) :
    likePost store pid uid = (.fail 500 "Server error", store)
      ∧ unlikePost store pid uid = (.fail 500 "Server error", store) := by
  constructor
  · simp [likePost, findById, hv, hnone]
  · simp [unlikePost, findById, hv, hnone]

/-- C9 witness: a like and an unlike against an empty store. -/
theorem like_unlike_missing_post_is_500_witness :
    likePost [] "aaaaaaaaaaaaaaaaaaaaaaaa" "u1" = (.fail 500 "Server error", [])
      ∧ unlikePost [] "aaaaaaaaaaaaaaaaaaaaaaaa" "u1" = (.fail 500 "Server error", []) :=
  like_unlike_missing_post_is_500 [] "aaaaaaaaaaaaaaaaaaaaaaaa" "u1"
    (by decide) (by decide)

/-- C6: get-post-by-id answers the post when present and the same 404
'Post not found ' response both for a well-formed id with no post and for
an ill-formed id (never a 500 for an ill-formed id); get-profile-by-user
follows the same rule with its 400 'Profile not found' response. -/
theorem get_by_id_not_found_rule (store : List Post) (profiles : List Profile)
    (pid uid : String) :
    (∀ p, isValidObjectId pid = true → store.find? (fun q => q.id == pid) = some p →
      getPost store pid = .ok p)
    ∧ (isValidObjectId pid = true → store.find? (fun q => q.id == pid) = none →
      getPost store pid = .fail 404 "Post not found ")
    ∧ (isValidObjectId pid = false → getPost store pid = .fail 404 "Post not found ")
    ∧ (∀ pr, isValidObjectId uid = true → profiles.find? (fun q => q.user == uid) = some pr →
      getProfileByUser profiles uid = .ok pr)
    ∧ (isValidObjectId uid = true → profiles.find? (fun q => q.user == uid) = none →
      getProfileByUser profiles uid = .fail 400 "Profile not found")
    ∧ (isValidObjectId uid = false →
      getProfileByUser profiles uid = .fail 400 "Profile not found") := by
  refine ⟨?_, ?_, ?_, ?_, ?_, ?_⟩
  · intro p hv hf; simp [getPost, findById, hv, hf]
  · intro hv hf; simp [getPost, findById, hv, hf]
  · intro hv; simp [getPost, findById, hv]
  · intro pr hv hf; simp [getProfileByUser, hv, hf]
  · intro hv hf; simp [getProfileByUser, hv, hf]
  · intro hv; simp [getProfileByUser, hv]

/-- C6 witness: the six cases at concrete stores and ids. -/
theorem get_by_id_not_found_rule_witness :
    getPost [samplePost] "aaaaaaaaaaaaaaaaaaaaaaaa" = .ok samplePost
      ∧ getPost [samplePost] "cccccccccccccccccccccccc" = .fail 404 "Post not found "
      ∧ getPost [samplePost] "zz" = .fail 404 "Post not found "
      ∧ getProfileByUser [sampleProfile] "bbbbbbbbbbbbbbbbbbbbbbbb" = .ok sampleProfile
      ∧ getProfileByUser [sampleProfile] "cccccccccccccccccccccccc"
          = .fail 400 "Profile not found"
      ∧ getProfileByUser [sampleProfile] "zz" = .fail 400 "Profile not found" := by
  refine ⟨?_, ?_, ?_, ?_, ?_, ?_⟩
  · exact (get_by_id_not_found_rule [samplePost] [sampleProfile] "aaaaaaaaaaaaaaaaaaaaaaaa"
      "bbbbbbbbbbbbbbbbbbbbbbbb").1 samplePost (by decide) (by decide)
  · exact (get_by_id_not_found_rule [samplePost] [sampleProfile] "cccccccccccccccccccccccc"
      "bbbbbbbbbbbbbbbbbbbbbbbb").2.1 (by decide) (by decide)
  · exact (get_by_id_not_found_rule [samplePost] [sampleProfile] "zz"
      "bbbbbbbbbbbbbbbbbbbbbbbb").2.2.1 (by decide)
  · exact (get_by_id_not_found_rule [samplePost] [sampleProfile] "aaaaaaaaaaaaaaaaaaaaaaaa"
      "bbbbbbbbbbbbbbbbbbbbbbbb").2.2.2.1 sampleProfile (by decide) (by decide)
  · exact (get_by_id_not_found_rule [samplePost] [sampleProfile] "aaaaaaaaaaaaaaaaaaaaaaaa"
      "cccccccccccccccccccccccc").2.2.2.2.1 (by decide) (by decide)
  · exact (get_by_id_not_found_rule [samplePost] [sampleProfile] "aaaaaaaaaaaaaaaaaaaaaaaa"
      "zz").2.2.2.2.2 (by decide)

/-- C2: on an existing post with no likes yet, a user's first like
succeeds with a likes list of length one containing exactly that user,
and a second like by the same user is rejected with a 400 conflict that
leaves the saved store (and hence the likes list) unchanged. -/
theorem like_twice_conflict (store : List Post) (pid uid : String) (p : Post)
    (hv : isValidObjectId pid = true)
    (hf : store.find? (fun q => q.id == pid) = some p)
    (hempty : p.likes = []) :
    likePost store pid uid
        = (.ok [{ user := uid }], saveDoc store { p with likes := [{ user := uid }] })
      ∧ likePost (saveDoc store { p with likes := [{ user := uid }] }) pid uid
        = (.fail 400 "Post already liked",
           saveDoc store { p with likes := [{ user := uid }] }) := by
  have hq : (p.id == pid) = true := findSomeSat (fun q => q.id == pid) store p hf
  have hpid : p.id = pid := eq_of_beq hq
  have hf2 : (saveDoc store { p with likes := [({ user := uid } : Like)] }).find?
      (fun q => q.id == pid) = some { p with likes := [({ user := uid } : Like)] } :=
    find?_saveDoc pid { p with likes := [({ user := uid } : Like)] } hpid store p hf
  constructor
  · simp [likePost, findById, hv, hf, hempty]
  · simp [likePost, findById, hv, hf2]

/-- C2 witness: liking samplePost twice as u2. -/
theorem like_twice_conflict_witness :
    likePost [samplePost] "aaaaaaaaaaaaaaaaaaaaaaaa" "u2"
        = (.ok [{ user := "u2" }],
           saveDoc [samplePost] { samplePost with likes := [{ user := "u2" }] })
      ∧ likePost (saveDoc [samplePost] { samplePost with likes := [{ user := "u2" }] })
          "aaaaaaaaaaaaaaaaaaaaaaaa" "u2"
        = (.fail 400 "Post already liked",
           saveDoc [samplePost] { samplePost with likes := [{ user := "u2" }] }) :=
  like_twice_conflict [samplePost] "aaaaaaaaaaaaaaaaaaaaaaaa" "u2" samplePost
    (by decide) (by decide) (by decide)

/-- C4: deleting a post: a well-formed id matching no post answers 404
whoever the requester is (existence is checked before ownership); an
existing post and a non-owner requester answers 401 with the store left
intact; the owner's delete removes the post, so a subsequent get answers
404. -/
theorem delete_post_contract (store : List Post) (pid uid : String) :
    (isValidObjectId pid = true → store.find? (fun q => q.id == pid) = none →
      deletePost store pid uid = (.fail 404 "Post not found ", store))
    ∧ (∀ p, isValidObjectId pid = true → store.find? (fun q => q.id == pid) = some p →
        ¬ p.user = uid →
      deletePost store pid uid = (.fail 401 "User not authorized", store))
    ∧ (∀ p, isValidObjectId pid = true → store.find? (fun q => q.id == pid) = some p →
        p.user = uid → (store.filter (fun q => q.id == pid)).length ≤ 1 →
      (deletePost store pid uid).1 = .ok "Post removed"
        ∧ getPost (deletePost store pid uid).2 pid = .fail 404 "Post not found ") := by
  refine ⟨?_, ?_, ?_⟩
  · intro hv hnone
    simp [deletePost, findById, hv, hnone]
  · intro p hv hf hne
    have hbne : (p.user != uid) = true := by
      simp only [bne_iff_ne, ne_eq]
      exact hne
    simp [deletePost, findById, hv, hf, hbne]
  · intro p hv hf hown hle
    have hq : (p.id == pid) = true := findSomeSat (fun q => q.id == pid) store p hf
    have hpid : p.id = pid := eq_of_beq hq
    have hbne : (p.user != uid) = false := by
      simp [bne, hown]
    have hdel : deletePost store pid uid
        = (.ok "Post removed", findOneAndRemove (fun q => q.id == pid) store) := by
      simp [deletePost, findById, hv, hf, hbne, hpid]
    constructor
    · rw [hdel]
    · rw [hdel]
      have hn := find?_findOneAndRemove_of_le_one (fun q => q.id == pid) store hle
      simp [getPost, findById, hv, hn]

/-- C4 witness: missing id, non-owner and owner cases on samplePost. -/
theorem delete_post_contract_witness :
    deletePost [] "aaaaaaaaaaaaaaaaaaaaaaaa" "u1" = (.fail 404 "Post not found ", [])
      ∧ deletePost [samplePost] "aaaaaaaaaaaaaaaaaaaaaaaa" "u2"
          = (.fail 401 "User not authorized", [samplePost])
      ∧ ((deletePost [samplePost] "aaaaaaaaaaaaaaaaaaaaaaaa" "u1").1 = .ok "Post removed"
        ∧ getPost (deletePost [samplePost] "aaaaaaaaaaaaaaaaaaaaaaaa" "u1").2
            "aaaaaaaaaaaaaaaaaaaaaaaa" = .fail 404 "Post not found ") := by
  refine ⟨?_, ?_, ?_⟩
  · exact (delete_post_contract [] "aaaaaaaaaaaaaaaaaaaaaaaa" "u1").1 (by decide) (by decide)
  · exact (delete_post_contract [samplePost] "aaaaaaaaaaaaaaaaaaaaaaaa" "u2").2.1
      samplePost (by decide) (by decide) (by decide)
  · exact (delete_post_contract [samplePost] "aaaaaaaaaaaaaaaaaaaaaaaa" "u1").2.2
      samplePost (by decide) (by decide) (by decide) (by decide)

/-- C7: on an existing post, unlike by a user with no like entry is
rejected with a 400 conflict changing nothing; unlike by a user who has
liked it erases exactly the requester's own (first) like entry — the
index is computed from the requester's like — and every other user's like
entries are preserved verbatim. -/
theorem unlike_contract (store : List Post) (pid uid : String) (p : Post)
    (hv : isValidObjectId pid = true)
    (hf : store.find? (fun q => q.id == pid) = some p) :
    (uid ∉ p.likes.map (fun l => l.user) →
      unlikePost store pid uid = (.fail 400 "Post has not yet been liked", store))
    ∧ (uid ∈ p.likes.map (fun l => l.user) →
      unlikePost store pid uid
          = (.ok (p.likes.eraseP (fun l => l.user == uid)),
             saveDoc store { p with likes := p.likes.eraseP (fun l => l.user == uid) })
        ∧ ∀ v, ¬ v = uid →
            (p.likes.eraseP (fun l => l.user == uid)).filter (fun l => l.user == v)
              = p.likes.filter (fun l => l.user == v)) := by
  constructor
  · intro hnm
    have hfil : p.likes.filter (fun l => l.user == uid) = [] := by
      apply List.filter_eq_nil_iff.mpr
      intro a ha hpa
      exact hnm (List.mem_map.mpr ⟨a, ha, eq_of_beq hpa⟩)
    simp [unlikePost, findById, hv, hf, hfil]
  · intro hm
    have hpos := (mem_map_iff_filter_pos (fun l => l.user) uid p.likes).mp hm
    have hguard : ((p.likes.filter (fun l => l.user == uid)).length == 0) = false := by
      simp only [beq_eq_false_iff_ne, ne_eq]
      omega
    have hsplice := spliceRemove1_jsIndexOf_mem (fun l => l.user) uid p.likes hm
    constructor
    · simp [unlikePost, findById, hv, hf, hguard, hsplice]
    · intro v hv2
      exact filter_eraseP_of_ne (fun l => l.user) uid v hv2 p.likes

/-- C7 witness: sampleLikedPost (liked by u2 and u3) unliked by u4 (a
rejected no-op) and unliked by u2 (only the u2 entry is erased). -/
theorem unlike_contract_witness :
    unlikePost [sampleLikedPost] "aaaaaaaaaaaaaaaaaaaaaaaa" "u4"
        = (.fail 400 "Post has not yet been liked", [sampleLikedPost])
      ∧ (unlikePost [sampleLikedPost] "aaaaaaaaaaaaaaaaaaaaaaaa" "u2"
          = (.ok (sampleLikedPost.likes.eraseP (fun l => l.user == "u2")),
             saveDoc [sampleLikedPost]
               { sampleLikedPost with
                 likes := sampleLikedPost.likes.eraseP (fun l => l.user == "u2") })
        ∧ (sampleLikedPost.likes.eraseP (fun l => l.user == "u2")).filter
              (fun l => l.user == "u3")
            = sampleLikedPost.likes.filter (fun l => l.user == "u3")) := by
  constructor
  · exact (unlike_contract [sampleLikedPost] "aaaaaaaaaaaaaaaaaaaaaaaa" "u4"
      sampleLikedPost (by decide) (by decide)).1 (by decide)
  · have h := (unlike_contract [sampleLikedPost] "aaaaaaaaaaaaaaaaaaaaaaaa" "u2"
      sampleLikedPost (by decide) (by decide)).2 (by decide)
    exact ⟨h.1, h.2 "u3" (by decide)⟩

/-- C8: the account-deletion handler removes the requester's profile
document and user document but does not touch the posts collection at
all — cascading removal of the user's posts is only a TODO comment. -/
theorem delete_account_contract (s : AppState) (uid : String)
    (hp : (s.profiles.filter (fun p => p.user == uid)).length ≤ 1)
    (hu : (s.users.filter (fun u => u.id == uid)).length ≤ 1) :
    (deleteAccount s uid).2.posts = s.posts
      ∧ ((deleteAccount s uid).2.profiles.filter (fun p => p.user == uid)) = []
      ∧ ((deleteAccount s uid).2.users.filter (fun u => u.id == uid)) = []
      ∧ (deleteAccount s uid).1 = .ok "User deleted" := by
  refine ⟨rfl, ?_, ?_, rfl⟩
  · exact filter_findOneAndRemove _ s.profiles hp
  · exact filter_findOneAndRemove _ s.users hu

/-- C8 witness: deleting account u1 in sampleState (which holds a post
authored by u1) leaves the posts collection unchanged. -/
theorem delete_account_contract_witness :
    (deleteAccount sampleState "u1").2.posts = sampleState.posts
      ∧ ((deleteAccount sampleState "u1").2.profiles.filter (fun p => p.user == "u1")) = []
      ∧ ((deleteAccount sampleState "u1").2.users.filter (fun u => u.id == "u1")) = []
      ∧ (deleteAccount sampleState "u1").1 = .ok "User deleted" :=
  delete_account_contract sampleState "u1" (by decide) (by decide)

/-- C10: whenever the upsert accepts a request whose skills field is the
non-empty string s, the profile it answers (inserted or updated) stores
skills as the ordered list obtained by splitting s on ',' and trimming
each element. -/
theorem upsert_skills_split (store : List Profile) (uid : String) (b : ProfileBody)
    (s : String) (hs : b.skills = some s) (hemp : s.isEmpty = false)
    (hst : truthy b.status = true) :
    ∀ p, (upsertProfile store uid b).1 = .ok p →
      p.skills = some ((jsSplitComma s).map jsTrim) := by
  intro p hp
  have htr : truthy b.skills = true := by simp [truthy, hs, hemp]
  have hsk : (buildProfileFields uid b).skills = some ((jsSplitComma s).map jsTrim) := by
    simp [buildProfileFields, hs, hemp]
  have hguard : (!truthy b.status || !truthy b.skills) = false := by simp [hst, htr]
  rcases hcase : store.find? (fun q => q.user == uid) with _ | q
  · have heq : upsertProfile store uid b
        = (.ok (profileOfFields (buildProfileFields uid b)),
           store ++ [profileOfFields (buildProfileFields uid b)]) := by
      simp [upsertProfile, hguard, hcase]
    rw [heq] at hp
    cases hp
    simp [profileOfFields, hsk]
  · have hr := findOneAndUpdateByUser_of_find? uid
      (fun x => applySet x (buildProfileFields uid b)) store q hcase
    have heq : (upsertProfile store uid b).1
        = .ok (applySet q (buildProfileFields uid b)) := by
      simp [upsertProfile, hguard, hcase, hr]
    rw [heq] at hp
    cases hp
    simp [applySet, hsk]

/-- C10 witness: skills "a, b ,c" is stored as the trimmed split in
left-to-right order, both on insert and on update. -/
theorem upsert_skills_split_witness :
    (∀ p, (upsertProfile [] "u1"
        { bodyA with skills := some "a, b ,c" }).1 = .ok p →
      p.skills = some ["a", "b", "c"])
    ∧ (∀ p, (upsertProfile [sampleProfileExp] "u1"
        { bodyA with skills := some "a, b ,c" }).1 = .ok p →
      p.skills = some ["a", "b", "c"]) := by
  constructor
  · intro p hp
    have h := upsert_skills_split [] "u1" { bodyA with skills := some "a, b ,c" }
      "a, b ,c" (by decide) (by decide) (by decide) p hp
    rw [h]
    decide
  · intro p hp
    have h := upsert_skills_split [sampleProfileExp] "u1"
      { bodyA with skills := some "a, b ,c" } "a, b ,c" (by decide) (by decide)
      (by decide) p hp
    rw [h]
    decide

/-- C3 counterexample: on a profile whose experience list is [e1],
remove-experience with the absent id "zzz" is NOT a silent no-op: indexOf
yields -1 and splice(-1, 1) removes the last entry, leaving the list
empty. -/
theorem remove_experience_not_noop_counterexample :
    (deleteExperience [sampleProfileExp] "u1" "zzz").2
        = [{ sampleProfileExp with experience := [] }]
      ∧ ¬ (deleteExperience [sampleProfileExp] "u1" "zzz").2 = [sampleProfileExp]
      ∧ sampleProfileExp.experience = [sampleExp] := by
  refine ⟨by decide, by decide, by decide⟩

/-- C3 (amended): remove-experience locates the entry by the sub-record's
own id and, when present, erases exactly the first entry carrying that
id; when no entry with that id exists, indexOf yields -1 and splice(-1,1)
drops the LAST entry of the list — the list is left unchanged only when
it is already empty (dropLast of an empty list). -/
theorem remove_experience_contract (profiles : List Profile) (uid expId : String)
    (prof : Profile)
    (hf : profiles.find? (fun p => p.user == uid) = some prof) :
    (expId ∈ prof.experience.map (fun e => e.id) →
      deleteExperience profiles uid expId
        = (.ok { prof with
                 experience := prof.experience.eraseP (fun e => e.id == expId) },
           saveProfile profiles
             { prof with
               experience := prof.experience.eraseP (fun e => e.id == expId) }))
    ∧ (expId ∉ prof.experience.map (fun e => e.id) →
      deleteExperience profiles uid expId
        = (.ok { prof with experience := prof.experience.dropLast },
           saveProfile profiles
             { prof with experience := prof.experience.dropLast })) := by
  constructor
  · intro hm
    have hs := spliceRemove1_jsIndexOf_mem (fun e => e.id) expId prof.experience hm
    simp [deleteExperience, hf, hs]
  · intro hm
    have hs := spliceRemove1_jsIndexOf_not_mem (fun e => e.id) expId prof.experience hm
    simp [deleteExperience, hf, hs]

/-- C3 witness: both branches of the amended contract at the concrete
profile holding exactly entry e1. -/
theorem remove_experience_contract_witness :
    deleteExperience [sampleProfileExp] "u1" "e1"
        = (.ok { sampleProfileExp with
                 experience := sampleProfileExp.experience.eraseP (fun e => e.id == "e1") },
           saveProfile [sampleProfileExp]
             { sampleProfileExp with
               experience := sampleProfileExp.experience.eraseP (fun e => e.id == "e1") })
      ∧ deleteExperience [sampleProfileExp] "u1" "zzz"
        = (.ok { sampleProfileExp with
                 experience := sampleProfileExp.experience.dropLast },
           saveProfile [sampleProfileExp]
             { sampleProfileExp with
               experience := sampleProfileExp.experience.dropLast }) :=
  ⟨(remove_experience_contract [sampleProfileExp] "u1" "e1" sampleProfileExp
      (by decide)).1 (by decide),
   (remove_experience_contract [sampleProfileExp] "u1" "zzz" sampleProfileExp
      (by decide)).2 (by decide)⟩

/-- One $set key built by keepIf: present (truthy) body fields overwrite,
absent ones leave the stored value. -/
theorem setField_keepIf (v old : Option String) :
    setField (keepIf v) old = (if truthy v then v else old) := by
  cases v with
  | none => simp [keepIf, truthy, setField]
  | some c =>
    by_cases h : truthy (some c) = true
    · simp [keepIf, setField, h]
    · simp [keepIf, setField, h]

/-- C5 counterexample: upserting bodyA (with youtube "ytA") and then
bodyB (youtube absent) for the same user stores social.youtube = none —
the youtube field was absent from the second request, yet its prior value
"ytA" is NOT retained, because profileFields always carries a freshly
built social object that $set replaces wholesale. -/
theorem upsert_twice_social_counterexample :
    ((upsertProfile (upsertProfile [] "u1" bodyA).2 "u1" bodyB).2.map
        (fun p => p.social.youtube)) = [none]
      ∧ ((upsertProfile [] "u1" bodyA).2.map (fun p => p.social.youtube))
          = [some "ytA"] := by
  refine ⟨by decide, by decide⟩

/-- C5 (amended): two upserts for the same user never produce two profile
documents (exactly one profile for that user results), and on the second
call top-level fields present overwrite while top-level fields absent
retain their prior values; the social sub-record however is rebuilt from
the second request alone, so social links absent from the second request
are cleared rather than retained. -/
theorem upsert_twice_contract (profiles : List Profile) (uid : String)
    (b1 b2 : ProfileBody)
    (hnone : profiles.find? (fun p => p.user == uid) = none)
    (hs1 : truthy b1.status = true) (hk1 : truthy b1.skills = true)
    (hs2 : truthy b2.status = true) (hk2 : truthy b2.skills = true) :
    ((upsertProfile (upsertProfile profiles uid b1).2 uid b2).2.filter
        (fun p => p.user == uid)).length = 1
      ∧ (upsertProfile (upsertProfile profiles uid b1).2 uid b2).1
          = .ok (applySet (profileOfFields (buildProfileFields uid b1))
                  (buildProfileFields uid b2))
      ∧ (applySet (profileOfFields (buildProfileFields uid b1))
            (buildProfileFields uid b2)).company
          = (if truthy b2.company then b2.company
             else (profileOfFields (buildProfileFields uid b1)).company)
      ∧ (applySet (profileOfFields (buildProfileFields uid b1))
            (buildProfileFields uid b2)).website
          = (if truthy b2.website then b2.website
             else (profileOfFields (buildProfileFields uid b1)).website)
      ∧ (applySet (profileOfFields (buildProfileFields uid b1))
            (buildProfileFields uid b2)).location
          = (if truthy b2.location then b2.location
             else (profileOfFields (buildProfileFields uid b1)).location)
      ∧ (applySet (profileOfFields (buildProfileFields uid b1))
            (buildProfileFields uid b2)).bio
          = (if truthy b2.bio then b2.bio
             else (profileOfFields (buildProfileFields uid b1)).bio)
      ∧ (applySet (profileOfFields (buildProfileFields uid b1))
            (buildProfileFields uid b2)).githubusername
          = (if truthy b2.githubusername then b2.githubusername
             else (profileOfFields (buildProfileFields uid b1)).githubusername)
      ∧ (applySet (profileOfFields (buildProfileFields uid b1))
            (buildProfileFields uid b2)).status = b2.status
      ∧ (applySet (profileOfFields (buildProfileFields uid b1))
            (buildProfileFields uid b2)).social = buildSocial b2 := by
  have hguard1 : (!truthy b1.status || !truthy b1.skills) = false := by
    simp [hs1, hk1]
  have hguard2 : (!truthy b2.status || !truthy b2.skills) = false := by
    simp [hs2, hk2]
  have hx : ((profileOfFields (buildProfileFields uid b1)).user == uid) = true := by
    simp [profileOfFields, buildProfileFields]
  have hstep1 : (upsertProfile profiles uid b1).2
      = profiles ++ [profileOfFields (buildProfileFields uid b1)] := by
    simp [upsertProfile, hguard1, hnone]
  have hfind2 : (profiles ++ [profileOfFields (buildProfileFields uid b1)]).find?
      (fun p => p.user == uid) = some (profileOfFields (buildProfileFields uid b1)) :=
    find?_append_singleton (fun p => p.user == uid)
      (profileOfFields (buildProfileFields uid b1)) hx profiles hnone
  have hupd := findOneAndUpdateByUser_append_singleton uid
    (fun p => applySet p (buildProfileFields uid b2))
    (profileOfFields (buildProfileFields uid b1)) hx profiles hnone
  have hstep2 : upsertProfile
      (profiles ++ [profileOfFields (buildProfileFields uid b1)]) uid b2
      = (.ok (applySet (profileOfFields (buildProfileFields uid b1))
              (buildProfileFields uid b2)),
         profiles ++ [applySet (profileOfFields (buildProfileFields uid b1))
              (buildProfileFields uid b2)]) := by
    simp [upsertProfile, hguard2, hfind2, hupd]
  have hx2 : ((applySet (profileOfFields (buildProfileFields uid b1))
      (buildProfileFields uid b2)).user == uid) = true := by
    simp [applySet, buildProfileFields]
  refine ⟨?_, ?_, ?_, ?_, ?_, ?_, ?_, ?_, ?_⟩
  · rw [hstep1, hstep2]
    rw [filter_append_of_find?_none (fun p => p.user == uid) _ profiles hnone]
    simp [hx2]
  · rw [hstep1, hstep2]
  · simp [applySet, buildProfileFields, setField_keepIf]
  · simp [applySet, buildProfileFields, setField_keepIf]
  · simp [applySet, buildProfileFields, setField_keepIf]
  · simp [applySet, buildProfileFields, setField_keepIf]
  · simp [applySet, buildProfileFields, setField_keepIf]
  · simp [applySet, buildProfileFields, setField_keepIf, hs2]
  · rfl

/-- C5 witness: the amended contract at the concrete bodies bodyA and
bodyB starting from an empty profile store. -/
theorem upsert_twice_contract_witness :
    ((upsertProfile (upsertProfile [] "u1" bodyA).2 "u1" bodyB).2.filter
        (fun p => p.user == "u1")).length = 1
      ∧ (applySet (profileOfFields (buildProfileFields "u1" bodyA))
            (buildProfileFields "u1" bodyB)).social = buildSocial bodyB := by
  have h := upsert_twice_contract [] "u1" bodyA bodyB (by decide) (by decide)
    (by decide) (by decide) (by decide)
  exact ⟨h.1, h.2.2.2.2.2.2.2.2⟩

/-- C1: evaluating the comment-deletion handler at the failing input: in
cStore one user owns two comments (newer c2 at the head, older c1 at the
tail); deleting by the OLDER comment's own id c1 answers a comment list
holding exactly the comment with id c1 — the handler spliced out the
newer comment c2 instead, because the removal index is computed from the
requester's user id over all comments; the claimed outcome (exactly c2
left) does not hold. -/
theorem delete_comment_wrong_index_eval :
    (deleteComment cStore "aaaaaaaaaaaaaaaaaaaaaaaa" "c1" "dddddddddddddddddddddddd").1
        = .ok [{ id := "c1", text := "first comment", name := "U", avatar := "av2",
                 user := "dddddddddddddddddddddddd" }]
      ∧ ¬ (deleteComment cStore "aaaaaaaaaaaaaaaaaaaaaaaa" "c1"
            "dddddddddddddddddddddddd").1
        = .ok [{ id := "c2", text := "second comment", name := "U", avatar := "av2",
                 user := "dddddddddddddddddddddddd" }] := by
  refine ⟨by decide, by decide⟩
